import Mathlib

/-!
Verification of the `spawn_groups` runtime engine (`src/shared/runtime.rs`).

The engine keeps a lock-protected vector `iter` of `(Priority, JoinHandle)`
pairs (the Pending Registry), a thread pool used as a blocking bridge, and a
shared `AsyncStream` that collects completed results.  This file gives a
shallow embedding of the engine's logical state and of the operations
`write_task`, `wait_for_all_tasks`, `wait_for`, `cancel` and `clone`, and
proves the specified properties about them.

Concurrency is modelled by the sequential effect each operation has on the
shared logical state, together with an explicit trace of the jobs it schedules
(blocking waits, cancellation jobs, quiescence barriers): the order in which
blocking waits are scheduled is exactly the drain order the specification
talks about.
-/

namespace SpawnGroups

/-- A Pending Entry: a `(priority, completion-handle)` pair
(`runtime.rs` line 9, `type Lock = Arc<Mutex<Vec<(Priority, JoinHandle<()>)>>>`).
Modelled from the spec for the two component types, neither of which is under
`src/`: the Priority type (`crate::shared::priority`) is an opaque, totally
ordered value (§3), modelled as `Nat`; the completion handle (`JoinHandle<()>`)
is modelled as an opaque `Nat` identifier, since the engine never inspects a
handle — it only awaits or cancels it. -/
abbrev Entry := Nat × Nat

/-- Contents of the Pending Registry vector behind the lock. -/
abbrev Registry := List Entry

/-- Modelled from the spec: the Result Stream collaborator (§6; its source,
the `async_stream` module, is not under `src/`).  It accumulates completed
items and tracks an in-flight counter.  Items are modelled as `Nat`. -/
structure AsyncStream where
  items : List Nat
  taskCount : Nat
deriving DecidableEq

/-- Modelled from the spec: `increment()` marks one more in-flight task (§6). -/
def AsyncStream.increment (s : AsyncStream) : AsyncStream :=
  { s with taskCount := s.taskCount + 1 }

/-- Modelled from the spec: `insert_item(item)` records one completed result (§6). -/
def AsyncStream.insert_item (s : AsyncStream) (v : Nat) : AsyncStream :=
  { s with items := s.items ++ [v] }

/-- Modelled from the spec: `decrement_task_count()` marks one fewer in-flight
task (§6). -/
def AsyncStream.decrement_task_count (s : AsyncStream) : AsyncStream :=
  { s with taskCount := s.taskCount - 1 }

/-- Modelled from the spec: `task_count()` returns the current in-flight count
(§6, non-suspending read). -/
def AsyncStream.task_count (s : AsyncStream) : Nat := s.taskCount

/-- Modelled from the spec: `is_empty()` reports whether any results or
in-flight tasks exist (§6; §2 "reports emptiness"): it returns `true` exactly
when there are no collected items and no in-flight tasks. -/
def AsyncStream.is_empty (s : AsyncStream) : Bool :=
  s.items.isEmpty && s.taskCount == 0

/-- Modelled from the spec: `cancel_tasks()` discards all tracked
in-flight/result state (§6). -/
def AsyncStream.cancel_tasks (_s : AsyncStream) : AsyncStream :=
  { items := [], taskCount := 0 }

/-- The logical shared state an engine handle points at: the Pending Registry
(field `iter`, `runtime.rs` line 12) and the Result Stream (line 14).  The
thread pool only sequences jobs; its observable effects appear in the event
trace produced by each operation. -/
structure EngineState where
  iter : Registry
  stream : AsyncStream
deriving DecidableEq

/-- Observable pool effects of an engine operation, in the order they are
issued: `barrier` is the quiescence barrier `poll()` (`engine.join()`),
`blockOn e` is one scheduled job that synchronously blocks until entry `e`'s
handle resolves, `cancelJob es` is the single cancellation job that pops the
entries `es` (in pop order) and cancels each handle, and `streamCancel` is the
call `stream.cancel_tasks()`. -/
inductive Event where
  | barrier : Event
  | blockOn : Entry → Event
  | cancelJob : List Entry → Event
  | streamCancel : Event
deriving DecidableEq

/-- The entries a trace schedules blocking waits for, in schedule order: the
drain order observable from a trace. -/
def blockedEntries (trace : List Event) : List Entry :=
  trace.filterMap fun ev =>
    match ev with
    | Event.blockOn e => some e
    | _ => none

/-- The sort order used by the drain operations: `runtime.rs` lines 82 and 112
sort the registry with `sort_by(|lhs, rhs| lhs.0.cmp(&rhs.0))`, i.e. stably
ascending by priority. -/
def entryLE (lhs rhs : Entry) : Prop := lhs.1 ≤ rhs.1

instance : DecidableRel entryLE :=
  fun lhs rhs => inferInstanceAs (Decidable (lhs.1 ≤ rhs.1))

instance : IsTotal Entry entryLE := ⟨fun lhs rhs => Nat.le_total lhs.1 rhs.1⟩

instance : IsTrans Entry entryLE := ⟨fun _ _ _ h₁ h₂ => Nat.le_trans h₁ h₂⟩

/-- Rust's `Vec::sort_by` is a stable sort; a stable ascending sort is uniquely
determined by the comparator, so it is modelled by stable insertion sort on the
priority order. -/
def sortRegistry (reg : Registry) : Registry :=
  List.insertionSort entryLE reg

/-- `Vec::pop`: removes and returns the last element of the vector. -/
def vecPop {α : Type} (l : List α) : Option (α × List α) :=
  match l.getLast? with
  | none => none
  | some x => some (x, l.dropLast)

/-- The pop loop of `wait_for_all_tasks` (`runtime.rs` lines 83-89):
`while let Some((_, handle)) = iter.pop()` repeatedly pops the tail entry,
scheduling one blocking wait per popped entry, until the vector is empty.
Each successful pop strictly shortens the vector, so the vector's length is
enough fuel to run the loop to completion; the result is the pop order. -/
def popLoop {α : Type} : Nat → List α → List α
  | 0, _ => []
  | fuel + 1, l =>
    match vecPop l with
    | none => []
    | some (x, rest) => x :: popLoop fuel rest

/-- Pop order of draining an entire vector from the tail. -/
def drainAllOrder {α : Type} (l : List α) : List α := popLoop l.length l

/-- The counted pop loop of `wait_for` (`runtime.rs` lines 111-122):
`while count != 0`, pop the tail entry (scheduling a blocking wait when the
pop succeeds) and decrement `count`.  Returns the popped entries in pop order
together with the remaining vector. -/
def popCountLoop {α : Type} : List α → Nat → List α × List α
  | l, 0 => ([], l)
  | l, count + 1 =>
    match vecPop l with
    | none => popCountLoop l count
    | some (x, rest) =>
      let r := popCountLoop rest count
      (x :: r.1, r.2)

/-- `write_task` (`runtime.rs` lines 51-68), restricted to its Registry
effect: the pool job appends the `(priority, handle)` pair to the registry
vector under the lock.  (The spawned computation itself runs on the external
cooperative runtime; its stream effects are modelled by `completeTask`.) -/
def write_task (s : EngineState) (priority : Nat) (handle : Nat) : EngineState :=
  { s with iter := s.iter ++ [(priority, handle)] }

/-- Stream effect of one submitted computation that terminates normally
(`runtime.rs` lines 56-60): `increment()`, then `insert_item(result)`, then
`decrement_task_count()`. -/
def completeTask (st : AsyncStream) (result : Nat) : AsyncStream :=
  ((st.increment).insert_item result).decrement_task_count

/-- Stream state after every submitted task has terminated normally, in some
completion order given by the list of results. -/
def completeAll (st : AsyncStream) (results : List Nat) : AsyncStream :=
  results.foldl completeTask st

/-- `wait_for_all_tasks` (`runtime.rs` lines 72-91).  Trace: the initial
`poll()` barrier (line 74); then, unless the short-circuit (lines 78-80)
fires, one blocking wait per entry popped from the tail of the stably
ascending-sorted registry (lines 81-89), the loop running until the vector is
empty; then the final `poll()` barrier (line 90). -/
def wait_for_all_tasks (s : EngineState) : EngineState × List Event :=
  if s.stream.is_empty || s.stream.task_count == 0 then
    (s, [Event.barrier])
  else
    ({ s with iter := [] },
      Event.barrier ::
        (drainAllOrder (sortRegistry s.iter)).map Event.blockOn ++ [Event.barrier])

/-- `wait_for` (`runtime.rs` lines 93-126).  Trace: the initial `poll()`
barrier (line 95); then, on the joined helper thread, the guards (lines
101-110): return if the stream is empty or the in-flight count is zero, if
`count` is below the in-flight count, or if `count` exceeds the registry
length; otherwise sort stably ascending by priority (line 112) and run the
counted pop loop (lines 113-122); then the final `poll()` barrier (line 125). -/
def wait_for (s : EngineState) (count : Nat) : EngineState × List Event :=
  if s.stream.is_empty || s.stream.task_count == 0 then
    (s, [Event.barrier, Event.barrier])
  else if count < s.stream.task_count then
    (s, [Event.barrier, Event.barrier])
  else if count > s.iter.length then
    (s, [Event.barrier, Event.barrier])
  else
    ({ s with iter := (popCountLoop (sortRegistry s.iter) count).2 },
      Event.barrier ::
        (popCountLoop (sortRegistry s.iter) count).1.map Event.blockOn ++ [Event.barrier])

/-- `cancel` (`runtime.rs` lines 33-47).  In order: schedule one pool job that
pops every entry from the registry (no sort: pop order is reverse insertion
order) and issues a cooperative cancel to each handle (lines 36-44); call
`stream.cancel_tasks()` (line 45); run the `poll()` barrier (line 46) so the
cancellation job is complete before returning.  The pop loop leaves the
registry empty. -/
def cancel (s : EngineState) : EngineState × List Event :=
  ({ iter := [], stream := s.stream.cancel_tasks },
    [Event.cancelJob (drainAllOrder s.iter), Event.streamCancel, Event.barrier])

/-- The thread pool resource owned by one engine handle: an allocation
identity, a thread count, and the thread name (`runtime.rs` lines 20-23 and
145-148). -/
structure ThreadPool where
  poolId : Nat
  num_threads : Nat
  thread_name : String
deriving DecidableEq

/-- An engine handle (`RuntimeEngine`, `runtime.rs` lines 11-15): `iter` and
`stream` are references (`Arc` clones) into shared state, modelled as heap
locations; `engine` is the owned thread pool. -/
structure RuntimeEngine where
  iter : Nat
  engine : ThreadPool
  stream : Nat
deriving DecidableEq

/-- `Clone for RuntimeEngine` (`runtime.rs` lines 141-152): the duplicate
shares the `iter` and `stream` references, and builds a brand-new pool with
`num_cpus::get()` threads named "RuntimeEngine".  `numCpus` stands for the
environment-determined `num_cpus::get()`, and `freshId` for the allocation
identity of the newly built pool. -/
def RuntimeEngine.clone (e : RuntimeEngine) (numCpus freshId : Nat) : RuntimeEngine :=
  { iter := e.iter
    engine := { poolId := freshId, num_threads := numCpus, thread_name := "RuntimeEngine" }
    stream := e.stream }

/-- Heap of registry contents addressed by `Arc` reference. -/
abbrev RegistryHeap := Nat → Registry

/-- Heap of stream states addressed by `Arc` reference. -/
abbrev StreamHeap := Nat → AsyncStream

/-- Mutate the registry through one engine handle's shared reference. -/
def writeIter (h : RegistryHeap) (e : RuntimeEngine) (v : Registry) : RegistryHeap :=
  fun r => if r = e.iter then v else h r

/-- Read the registry through one engine handle's shared reference. -/
def readIter (h : RegistryHeap) (e : RuntimeEngine) : Registry := h e.iter

/-- Mutate the stream state through one engine handle's shared reference. -/
def writeStream (h : StreamHeap) (e : RuntimeEngine) (v : AsyncStream) : StreamHeap :=
  fun r => if r = e.stream then v else h r

/-- Read the stream state through one engine handle's shared reference. -/
def readStream (h : StreamHeap) (e : RuntimeEngine) : AsyncStream := h e.stream

/-! ## Loop lemmas -/

theorem vecPop_nil {α : Type} : vecPop ([] : List α) = none := rfl

theorem vecPop_concat {α : Type} (l : List α) (a : α) :
    vecPop (l ++ [a]) = some (a, l) := by
  simp [vecPop]

/-- Popping a vector from the tail until it is empty yields its reverse. -/
theorem popLoop_eq_reverse {α : Type} :
    ∀ (fuel : Nat) (l : List α), l.length ≤ fuel → popLoop fuel l = l.reverse := by
  intro fuel
  induction fuel with
  | zero =>
    intro l hl
    have : l = [] := List.eq_nil_of_length_eq_zero (Nat.le_zero.mp hl)
    subst this
    rfl
  | succ fuel ih =>
    intro l hl
    rcases List.eq_nil_or_concat l with rfl | ⟨l', a, rfl⟩
    · rfl
    · simp only [List.concat_eq_append] at hl ⊢
      have hlen : l'.length ≤ fuel := by
        simp only [List.length_append, List.length_cons, List.length_nil] at hl
        omega
      simp [popLoop, vecPop_concat, ih l' hlen]

theorem drainAllOrder_eq_reverse {α : Type} (l : List α) :
    drainAllOrder l = l.reverse :=
  popLoop_eq_reverse l.length l (Nat.le_refl _)

/-- The counted pop loop pops the `count` tail entries (in pop order, i.e. the
first `count` entries of the reverse) and leaves the rest of the vector. -/
theorem popCountLoop_eq_take {α : Type} :
    ∀ (count : Nat) (l : List α), count ≤ l.length →
      popCountLoop l count = (l.reverse.take count, l.take (l.length - count)) := by
  intro count
  induction count with
  | zero =>
    intro l _
    simp [popCountLoop]
  | succ count ih =>
    intro l hl
    rcases List.eq_nil_or_concat l with rfl | ⟨l', a, rfl⟩
    · simp at hl
    · simp only [List.concat_eq_append] at hl ⊢
      have hlen : count ≤ l'.length := by
        simp only [List.length_append, List.length_cons, List.length_nil] at hl
        omega
      have harith : l'.length + 1 - (count + 1) = l'.length - count := by omega
      simp only [popCountLoop, vecPop_concat, ih l' hlen, List.reverse_append,
        List.reverse_cons, List.reverse_nil, List.nil_append, List.singleton_append,
        List.take_succ_cons, List.length_append, List.length_cons, List.length_nil,
        harith]
      rw [List.take_append_of_le_length (by omega)]

/-! ## Sort lemmas: the registry sort is an ascending, stable sort -/

theorem sortRegistry_perm (reg : Registry) : List.Perm (sortRegistry reg) reg :=
  List.perm_insertionSort entryLE reg

theorem sortRegistry_pairwise (reg : Registry) :
    (sortRegistry reg).Pairwise entryLE :=
  List.sorted_insertionSort entryLE reg

theorem sortRegistry_length (reg : Registry) :
    (sortRegistry reg).length = reg.length :=
  (sortRegistry_perm reg).length_eq

/-- Inserting an entry of priority `p` into a list never passes over another
entry of priority `p` (it stops at the first entry of priority `≥ p`), so on
the priority-`p` entries the insertion is a `cons`. -/
theorem filter_orderedInsert_pos (p : Nat) (a : Entry) (ha : a.1 = p) :
    ∀ l : List Entry,
      (List.orderedInsert entryLE a l).filter (fun e => e.1 == p) =
        a :: l.filter (fun e => e.1 == p) := by
  intro l
  induction l with
  | nil => simp [List.orderedInsert, List.filter_cons, ha]
  | cons b l ih =>
    by_cases hab : entryLE a b
    · simp [List.orderedInsert, if_pos hab, List.filter_cons, ha]
    · have hb : (b.1 == p) = false := by
        have hlt : b.1 < a.1 := Nat.lt_of_not_le hab
        simp only [beq_eq_false_iff_ne, ne_eq]
        omega
      simp [List.orderedInsert, if_neg hab, List.filter_cons, hb, ih]

/-- Inserting an entry of priority other than `p` leaves the priority-`p`
entries unchanged. -/
theorem filter_orderedInsert_neg (p : Nat) (a : Entry) (ha : a.1 ≠ p) :
    ∀ l : List Entry,
      (List.orderedInsert entryLE a l).filter (fun e => e.1 == p) =
        l.filter (fun e => e.1 == p) := by
  intro l
  have ha' : (a.1 == p) = false := by
    simp only [beq_eq_false_iff_ne, ne_eq]
    exact ha
  induction l with
  | nil => simp [List.orderedInsert, List.filter_cons, ha']
  | cons b l ih =>
    by_cases hab : entryLE a b
    · simp [List.orderedInsert, if_pos hab, List.filter_cons, ha']
    · simp [List.orderedInsert, if_neg hab, List.filter_cons, ih]

/-- Stability of the registry sort: the subsequence of entries with any fixed
priority `p` is unchanged by the sort. -/
theorem filter_sortRegistry (p : Nat) (reg : Registry) :
    (sortRegistry reg).filter (fun e => e.1 == p) =
      reg.filter (fun e => e.1 == p) := by
  induction reg with
  | nil => rfl
  | cons a l ih =>
    show (List.orderedInsert entryLE a (List.insertionSort entryLE l)).filter _ = _
    by_cases ha : a.1 = p
    · rw [filter_orderedInsert_pos p a ha]
      rw [show List.insertionSort entryLE l = sortRegistry l from rfl, ih]
      simp [List.filter_cons, ha]
    · rw [filter_orderedInsert_neg p a ha]
      rw [show List.insertionSort entryLE l = sortRegistry l from rfl, ih]
      have ha' : (a.1 == p) = false := by
        simp only [beq_eq_false_iff_ne, ne_eq]
        exact ha
      simp [List.filter_cons, ha']

/-- A permutation of a priority-sorted registry with pairwise-distinct
priorities has a unique sorted form: sorting recovers that registry. -/
theorem sortRegistry_eq_of_perm (reg l : Registry) (hperm : List.Perm reg l)
    (hsorted : l.Pairwise entryLE) (hnodup : (l.map Prod.fst).Nodup) :
    sortRegistry reg = l := by
  have hp : List.Perm (sortRegistry reg) l := (sortRegistry_perm reg).trans hperm
  refine List.Perm.eq_of_sorted ?_ (sortRegistry_pairwise reg) hsorted hp
  intro a b ha hb hab hba
  have ha' : a ∈ l := hp.subset ha
  have hkey : a.1 = b.1 := Nat.le_antisymm hab hba
  exact List.inj_on_of_nodup_map hnodup ha' hb hkey

/-! ## Operation lemmas -/

/-- Block-wait schedule order recorded by a drain trace. -/
theorem blockedEntries_ofTrace (l : List Entry) :
    blockedEntries (Event.barrier :: l.map Event.blockOn ++ [Event.barrier]) = l := by
  induction l with
  | nil => rfl
  | cons x l ih =>
    simpa [blockedEntries, List.filterMap_cons] using ih

/-- `wait_for_all_tasks` never writes to the Result Stream (the stream is only
read for the short-circuit; completions write to it from the task side). -/
theorem wait_for_all_tasks_stream (s : EngineState) :
    (wait_for_all_tasks s).1.stream = s.stream := by
  unfold wait_for_all_tasks
  split
  · rfl
  · rfl

/-- On the non-short-circuit path, `wait_for_all_tasks` empties the registry,
assigns the drain trace, and leaves the stream alone. -/
theorem wait_for_all_tasks_of_active (s : EngineState)
    (hne : s.stream.is_empty = false) (htc : s.stream.task_count ≠ 0) :
    wait_for_all_tasks s =
      (⟨[], s.stream⟩,
        Event.barrier :: ((sortRegistry s.iter).reverse.map Event.blockOn)
          ++ [Event.barrier]) := by
  have hbeq : (s.stream.task_count == 0) = false := by
    simp only [beq_eq_false_iff_ne, ne_eq]
    exact htc
  unfold wait_for_all_tasks
  rw [hne, hbeq]
  simp only [Bool.or_self, Bool.false_eq_true, if_false]
  rw [drainAllOrder_eq_reverse]

/-- The guarded paths of `wait_for` are no-ops: state unchanged, and the trace
holds only the two quiescence barriers (`runtime.rs` lines 95 and 125). -/
theorem wait_for_guard_noop (s : EngineState) (count : Nat)
    (h : s.stream.is_empty = true ∨ s.stream.task_count = 0 ∨
      count < s.stream.task_count ∨ count > s.iter.length) :
    wait_for s count = (s, [Event.barrier, Event.barrier]) := by
  unfold wait_for
  by_cases h1 : (s.stream.is_empty || s.stream.task_count == 0) = true
  · rw [h1]
    rfl
  · rw [Bool.not_eq_true] at h1
    rw [h1]
    simp only [Bool.false_eq_true, if_false]
    have h1' := Bool.or_eq_false_iff.mp h1
    by_cases h2 : count < s.stream.task_count
    · rw [if_pos h2]
    · rw [if_neg h2]
      by_cases h3 : count > s.iter.length
      · rw [if_pos h3]
      · exfalso
        have he : s.stream.is_empty = false := h1'.1
        have ht : (s.stream.task_count == 0) = false := h1'.2
        rcases h with h | h | h | h
        · exact Bool.false_ne_true (he.symm.trans h)
        · rw [h] at ht
          simp at ht
        · exact h2 h
        · exact h3 h

/-- The effect of one normal task completion on the stream: it appends the
result and leaves the in-flight counter where it was. -/
theorem completeTask_eq (st : AsyncStream) (r : Nat) :
    completeTask st r = ⟨st.items ++ [r], st.taskCount⟩ := by
  simp [completeTask, AsyncStream.increment, AsyncStream.insert_item,
    AsyncStream.decrement_task_count]

/-- The effect of all tasks completing normally, in any completion order. -/
theorem completeAll_eq (results : List Nat) :
    ∀ st : AsyncStream, completeAll st results = ⟨st.items ++ results, st.taskCount⟩ := by
  induction results with
  | nil => intro st; simp [completeAll]
  | cons r results ih =>
    intro st
    show completeAll (completeTask st r) results = _
    rw [ih, completeTask_eq]
    simp

/-! ## Claims -/

/-- Claim C1: during `wait_for_all_tasks`, entries are popped and scheduled
for blocking waits in descending priority order — for every registry contents
the block-wait schedule is descending in priority, and for tasks with
priorities 1, 2, 3 submitted in any interleaving (any permutation of the
registry) the drain order is the priority-3 entry, then priority-2, then
priority-1, independent of submission order; completion timing is never
consulted, as the trace depends only on the registry contents. -/
theorem C1_priority_drain_order (st : AsyncStream) (reg : Registry)
    (hne : st.is_empty = false) (htc : st.task_count ≠ 0) :
    (blockedEntries (wait_for_all_tasks ⟨reg, st⟩).2).Pairwise (fun x y => y.1 ≤ x.1) ∧
    (∀ a b c : Nat, List.Perm reg [(1, a), (2, b), (3, c)] →
      (wait_for_all_tasks ⟨reg, st⟩).2 =
        [Event.barrier, Event.blockOn (3, c), Event.blockOn (2, b),
          Event.blockOn (1, a), Event.barrier]) := by
  have hact := wait_for_all_tasks_of_active ⟨reg, st⟩ hne htc
  constructor
  · rw [hact]
    show (blockedEntries (Event.barrier ::
      ((sortRegistry reg).reverse.map Event.blockOn) ++ [Event.barrier])).Pairwise _
    rw [blockedEntries_ofTrace]
    rw [List.pairwise_reverse]
    exact sortRegistry_pairwise reg
  · intro a b c hperm
    have hsort : sortRegistry reg = [(1, a), (2, b), (3, c)] := by
      apply sortRegistry_eq_of_perm _ _ hperm
      · refine List.Pairwise.cons ?_ (List.Pairwise.cons ?_
          (List.Pairwise.cons ?_ List.Pairwise.nil))
        · intro e he
          rcases List.mem_cons.mp he with rfl | he
          · show (1 : Nat) ≤ 2
            omega
          · rcases List.mem_cons.mp he with rfl | he
            · show (1 : Nat) ≤ 3
              omega
            · exact absurd he (List.not_mem_nil e)
        · intro e he
          rcases List.mem_cons.mp he with rfl | he
          · show (2 : Nat) ≤ 3
            omega
          · exact absurd he (List.not_mem_nil e)
        · intro e he
          exact absurd he (List.not_mem_nil e)
      · simp
    rw [hact]
    show Event.barrier :: ((sortRegistry reg).reverse.map Event.blockOn)
        ++ [Event.barrier] = _
    rw [hsort]
    rfl

/-- Claim C1 witness: priorities 1, 2, 3 submitted in the interleaving
2, 1, 3 are drained 3, 2, 1. -/
theorem C1_priority_drain_order_witness :
    (blockedEntries (wait_for_all_tasks
        ⟨[(2, 20), (1, 10), (3, 30)], ⟨[], 1⟩⟩).2).Pairwise (fun x y => y.1 ≤ x.1) ∧
    (wait_for_all_tasks ⟨[(2, 20), (1, 10), (3, 30)], ⟨[], 1⟩⟩).2 =
      [Event.barrier, Event.blockOn (3, 30), Event.blockOn (2, 20),
        Event.blockOn (1, 10), Event.barrier] := by
  obtain ⟨h1, h2⟩ :=
    C1_priority_drain_order ⟨[], 1⟩ [(2, 20), (1, 10), (3, 30)] (by decide) (by decide)
  exact ⟨h1, h2 10 20 30 (by decide)⟩

/-- Claim C2: during `wait_for_all_tasks`, the entries of one equal-priority
tier `p`, appended in order A, B, C, are drained in reverse insertion order
C, B, A (LIFO within the tier): the sort is stable ascending and pops come
from the tail. -/
theorem C2_equal_priority_lifo (p a b c : Nat) (st : AsyncStream) (reg : Registry)
    (hne : st.is_empty = false) (htc : st.task_count ≠ 0)
    (hfilter : reg.filter (fun e => e.1 == p) = [(p, a), (p, b), (p, c)]) :
    (blockedEntries (wait_for_all_tasks ⟨reg, st⟩).2).filter (fun e => e.1 == p) =
      [(p, c), (p, b), (p, a)] := by
  rw [wait_for_all_tasks_of_active ⟨reg, st⟩ hne htc]
  show (blockedEntries (Event.barrier ::
    ((sortRegistry reg).reverse.map Event.blockOn) ++ [Event.barrier])).filter _ = _
  rw [blockedEntries_ofTrace]
  rw [List.filter_reverse, filter_sortRegistry, hfilter]
  rfl

/-- Claim C2 witness: equal priority 7 appended in handle order 1, 2, 3
(among a higher-priority entry) drains as 3, 2, 1. -/
theorem C2_equal_priority_lifo_witness :
    (blockedEntries (wait_for_all_tasks
        ⟨[(9, 100), (7, 1), (7, 2), (7, 3)], ⟨[], 1⟩⟩).2).filter (fun e => e.1 == 7) =
      [(7, 3), (7, 2), (7, 1)] :=
  C2_equal_priority_lifo 7 1 2 3 ⟨[], 1⟩ [(9, 100), (7, 1), (7, 2), (7, 3)]
    (by decide) (by decide) (by decide)

/-- Claim C3: `wait_for count` is a no-op — state unchanged, no entry removed,
no blocking-wait job scheduled (only the two unconditional `poll` barriers
appear in the trace) — whenever `count` is below the in-flight counter, or
`count` exceeds the registry length, or the stream is empty, or the in-flight
counter is zero. -/
theorem C3_wait_for_guard (s : EngineState) (count : Nat)
    (h : count < s.stream.task_count ∨ count > s.iter.length ∨
      s.stream.is_empty = true ∨ s.stream.task_count = 0) :
    wait_for s count = (s, [Event.barrier, Event.barrier]) := by
  apply wait_for_guard_noop
  rcases h with h | h | h | h
  · exact Or.inr (Or.inr (Or.inl h))
  · exact Or.inr (Or.inr (Or.inr h))
  · exact Or.inl h
  · exact Or.inr (Or.inl h)

/-- Claim C3 witness: with three registered entries and in-flight count 3,
`wait_for 2` is a no-op (the partial-drain guard of P6). -/
theorem C3_wait_for_guard_witness :
    wait_for ⟨[(1, 10), (2, 20), (3, 30)], ⟨[], 3⟩⟩ 2 =
      (⟨[(1, 10), (2, 20), (3, 30)], ⟨[], 3⟩⟩, [Event.barrier, Event.barrier]) :=
  C3_wait_for_guard ⟨[(1, 10), (2, 20), (3, 30)], ⟨[], 3⟩⟩ 2 (Or.inl (by decide))

/-- Claim C4 (amended): for every N submitted tasks, with pairwise-distinct
priorities, that each terminate normally, after `wait_for_all_tasks` returns
the Result Stream contains exactly N items and its in-flight counter is 0;
`is_empty`, which reports whether any results or in-flight tasks exist,
reports `true` exactly when N = 0 — for N ≥ 1 it reports `false`, because the
N delivered results are still in the stream. -/
theorem C4_delivery (reg : Registry) (results : List Nat)
    (_hdistinct : (reg.map Prod.fst).Nodup) (_hlen : reg.length = results.length) :
    (wait_for_all_tasks ⟨reg, completeAll ⟨[], 0⟩ results⟩).1.stream.items.length =
      results.length ∧
    (wait_for_all_tasks ⟨reg, completeAll ⟨[], 0⟩ results⟩).1.stream.task_count = 0 ∧
    (wait_for_all_tasks ⟨reg, completeAll ⟨[], 0⟩ results⟩).1.stream.is_empty =
      results.isEmpty := by
  have hstream : (wait_for_all_tasks ⟨reg, completeAll ⟨[], 0⟩ results⟩).1.stream =
      completeAll ⟨[], 0⟩ results :=
    wait_for_all_tasks_stream ⟨reg, completeAll ⟨[], 0⟩ results⟩
  rw [hstream, completeAll_eq]
  refine ⟨by simp, rfl, ?_⟩
  simp [AsyncStream.is_empty]

/-- Claim C4 witness: one task (priority 5, result 42). -/
theorem C4_delivery_witness :
    (wait_for_all_tasks ⟨[(5, 0)], completeAll ⟨[], 0⟩ [42]⟩).1.stream.items.length =
      [42].length ∧
    (wait_for_all_tasks ⟨[(5, 0)], completeAll ⟨[], 0⟩ [42]⟩).1.stream.task_count = 0 ∧
    (wait_for_all_tasks ⟨[(5, 0)], completeAll ⟨[], 0⟩ [42]⟩).1.stream.is_empty =
      [42].isEmpty :=
  C4_delivery [(5, 0)] [42] (by decide) (by decide)

/-- Claim C4 counterexample: one submitted task (priority 5, result 42) that
terminates normally — after `wait_for_all_tasks` the stream holds exactly one
item and the in-flight counter is 0, but `is_empty` reports `false`, not
`true` as the claim states. -/
theorem C4_delivery_counterexample :
    (wait_for_all_tasks ⟨[(5, 0)], completeAll ⟨[], 0⟩ [42]⟩).1.stream.items.length = 1 ∧
    (wait_for_all_tasks ⟨[(5, 0)], completeAll ⟨[], 0⟩ [42]⟩).1.stream.task_count = 0 ∧
    (wait_for_all_tasks ⟨[(5, 0)], completeAll ⟨[], 0⟩ [42]⟩).1.stream.is_empty = false := by
  decide

/-- Claim C5: calling `wait_for_all_tasks` when the stream reports empty, or
when its in-flight counter is zero, returns through the short-circuit with no
effect on the state: the registry is not locked, not sorted, and no entry is
removed, and no blocking wait is scheduled — the trace holds only the
unconditional initial `poll` barrier. -/
theorem C5_short_circuit (s : EngineState)
    (h : s.stream.is_empty = true ∨ s.stream.task_count = 0) :
    wait_for_all_tasks s = (s, [Event.barrier]) := by
  have hc : (s.stream.is_empty || s.stream.task_count == 0) = true := by
    rcases h with h | h
    · simp [h]
    · simp [h]
  unfold wait_for_all_tasks
  rw [hc]
  simp

/-- Claim C5 witness: a stream with one delivered item but in-flight counter
zero short-circuits, leaving the registry entry in place. -/
theorem C5_short_circuit_witness :
    wait_for_all_tasks ⟨[(1, 10)], ⟨[7], 0⟩⟩ =
      (⟨[(1, 10)], ⟨[7], 0⟩⟩, [Event.barrier]) :=
  C5_short_circuit ⟨[(1, 10)], ⟨[7], 0⟩⟩ (Or.inr (by decide))

/-- Claim C6: `cancel` (a) schedules one pool job that pops every entry from
the registry (pop order: reverse insertion order) and issues a cooperative
cancel to each popped handle, then (b) instructs the stream to discard its
tracked in-flight/result state, then (c) runs the quiescence barrier — in
that order; after `cancel` returns the registry is empty and the stream
reports empty. -/
theorem C6_cancel_effects (s : EngineState) :
    (cancel s).2 =
      [Event.cancelJob s.iter.reverse, Event.streamCancel, Event.barrier] ∧
    (cancel s).1.iter = [] ∧
    (cancel s).1.stream.is_empty = true := by
  refine ⟨?_, rfl, rfl⟩
  show [Event.cancelJob (drainAllOrder s.iter), Event.streamCancel, Event.barrier] = _
  rw [drainAllOrder_eq_reverse]

/-- Claim C7: when none of the `wait_for count` guards fire, the registry is
sorted stably ascending by priority and exactly `count` entries — the `count`
highest-priority ones, popped from the tail in descending priority order with
LIFO tie-break — are removed and scheduled for blocking waits, one per loop
iteration, while the rest remain in the registry; the trace finishes with the
quiescence barrier. -/
theorem C7_partial_drain (s : EngineState) (count : Nat)
    (hne : s.stream.is_empty = false) (htc : s.stream.task_count ≠ 0)
    (hcge : s.stream.task_count ≤ count) (hcle : count ≤ s.iter.length) :
    (wait_for s count).1.stream = s.stream ∧
    (wait_for s count).1.iter = (sortRegistry s.iter).take (s.iter.length - count) ∧
    (wait_for s count).1.iter.length = s.iter.length - count ∧
    (wait_for s count).2 =
      Event.barrier :: ((sortRegistry s.iter).reverse.take count).map Event.blockOn
        ++ [Event.barrier] ∧
    ((sortRegistry s.iter).reverse.take count).Pairwise (fun x y => y.1 ≤ x.1) ∧
    (∀ e ∈ (sortRegistry s.iter).reverse.take count,
      ∀ r ∈ (wait_for s count).1.iter, r.1 ≤ e.1) := by
  have hbeq : (s.stream.task_count == 0) = false := by
    simp only [beq_eq_false_iff_ne, ne_eq]
    exact htc
  have hcond : (s.stream.is_empty || s.stream.task_count == 0) = false := by
    rw [hne, hbeq]
    rfl
  have hlt : ¬ (count < s.stream.task_count) := Nat.not_lt.mpr hcge
  have hgt : ¬ (count > s.iter.length) := Nat.not_lt.mpr hcle
  have hslen : count ≤ (sortRegistry s.iter).length := by
    rw [sortRegistry_length]
    exact hcle
  have hpop := popCountLoop_eq_take count (sortRegistry s.iter) hslen
  have heval : wait_for s count =
      (⟨(sortRegistry s.iter).take ((sortRegistry s.iter).length - count), s.stream⟩,
        Event.barrier ::
          ((sortRegistry s.iter).reverse.take count).map Event.blockOn
            ++ [Event.barrier]) := by
    unfold wait_for
    rw [hcond]
    rw [if_neg Bool.false_ne_true, if_neg hlt, if_neg hgt, hpop]
  have hiter : (wait_for s count).1.iter =
      (sortRegistry s.iter).take (s.iter.length - count) := by
    rw [heval, sortRegistry_length]
  refine ⟨by rw [heval], hiter, ?_, by rw [heval], ?_, ?_⟩
  · rw [hiter, List.length_take, sortRegistry_length]
    omega
  · have := sortRegistry_pairwise s.iter
    have hrevp : ((sortRegistry s.iter).reverse).Pairwise (fun x y => y.1 ≤ x.1) := by
      rw [List.pairwise_reverse]
      exact this
    exact hrevp.sublist (List.take_sublist count _)
  · intro e he r hr
    rw [hiter] at hr
    have hrevtake : (sortRegistry s.iter).reverse.take count =
        ((sortRegistry s.iter).drop ((sortRegistry s.iter).length - count)).reverse := by
      have hsplit : (sortRegistry s.iter).reverse =
          ((sortRegistry s.iter).drop ((sortRegistry s.iter).length - count)).reverse
            ++ ((sortRegistry s.iter).take ((sortRegistry s.iter).length - count)).reverse := by
        rw [← List.reverse_append, List.take_append_drop]
      rw [hsplit]
      apply List.take_left'
      rw [List.length_reverse, List.length_drop]
      omega
    rw [hrevtake] at he
    have he' : e ∈ (sortRegistry s.iter).drop ((sortRegistry s.iter).length - count) :=
      List.mem_reverse.mp he
    have hsorted' : ((sortRegistry s.iter).take ((sortRegistry s.iter).length - count)
        ++ (sortRegistry s.iter).drop ((sortRegistry s.iter).length - count)).Pairwise
          entryLE := by
      rw [List.take_append_drop]
      exact sortRegistry_pairwise s.iter
    obtain ⟨-, -, hcross⟩ := List.pairwise_append.mp hsorted'
    have hr' : r ∈ (sortRegistry s.iter).take ((sortRegistry s.iter).length - count) := by
      rw [sortRegistry_length]
      exact hr
    exact hcross r hr' e he'

/-- Claim C7 witness: three entries, in-flight count 2, `wait_for 2` drains
the two highest priorities (3 then 2) and leaves the lowest. -/
theorem C7_partial_drain_witness :
    (wait_for ⟨[(2, 20), (1, 10), (3, 30)], ⟨[], 2⟩⟩ 2).1.iter = [(1, 10)] ∧
    (wait_for ⟨[(2, 20), (1, 10), (3, 30)], ⟨[], 2⟩⟩ 2).2 =
      [Event.barrier, Event.blockOn (3, 30), Event.blockOn (2, 20), Event.barrier] := by
  obtain ⟨-, hiter, -, htrace, -, -⟩ :=
    C7_partial_drain ⟨[(2, 20), (1, 10), (3, 30)], ⟨[], 2⟩⟩ 2
      (by decide) (by decide) (by decide) (by decide)
  constructor
  · rw [hiter]
    decide
  · rw [htrace]
    decide

/-- Claim C8: duplicating an engine yields a handle whose registry reference
and stream reference are the very same shared state (mutations through either
handle are read back through the other), while its pool is a newly
constructed, independent one sized to the logical processor count. -/
theorem C8_clone_shares_state (e : RuntimeEngine) (numCpus freshId : Nat)
    (hfresh : freshId ≠ e.engine.poolId) :
    (e.clone numCpus freshId).iter = e.iter ∧
    (e.clone numCpus freshId).stream = e.stream ∧
    (∀ (h : RegistryHeap) (v : Registry),
      readIter (writeIter h e v) (e.clone numCpus freshId) = v ∧
      readIter (writeIter h (e.clone numCpus freshId) v) e = v) ∧
    (∀ (h : StreamHeap) (v : AsyncStream),
      readStream (writeStream h e v) (e.clone numCpus freshId) = v ∧
      readStream (writeStream h (e.clone numCpus freshId) v) e = v) ∧
    (e.clone numCpus freshId).engine.num_threads = numCpus ∧
    (e.clone numCpus freshId).engine.poolId ≠ e.engine.poolId := by
  refine ⟨rfl, rfl, ?_, ?_, rfl, hfresh⟩
  · intro h v
    constructor
    · simp [readIter, writeIter, RuntimeEngine.clone]
    · simp [readIter, writeIter, RuntimeEngine.clone]
  · intro h v
    constructor
    · simp [readStream, writeStream, RuntimeEngine.clone]
    · simp [readStream, writeStream, RuntimeEngine.clone]

/-- Claim C8 witness: a concrete engine handle and its duplicate. -/
theorem C8_clone_shares_state_witness :
    (RuntimeEngine.clone ⟨0, ⟨0, 4, "RuntimeEngine"⟩, 1⟩ 8 5).iter = 0 ∧
    readIter
      (writeIter (fun _ => []) ⟨0, ⟨0, 4, "RuntimeEngine"⟩, 1⟩ [(1, 2)])
      (RuntimeEngine.clone ⟨0, ⟨0, 4, "RuntimeEngine"⟩, 1⟩ 8 5) = [(1, 2)] ∧
    (RuntimeEngine.clone ⟨0, ⟨0, 4, "RuntimeEngine"⟩, 1⟩ 8 5).engine.num_threads = 8 ∧
    (RuntimeEngine.clone ⟨0, ⟨0, 4, "RuntimeEngine"⟩, 1⟩ 8 5).engine.poolId ≠ 0 := by
  obtain ⟨h1, -, h3, -, h5, h6⟩ :=
    C8_clone_shares_state ⟨0, ⟨0, 4, "RuntimeEngine"⟩, 1⟩ 8 5 (by decide)
  exact ⟨h1, (h3 (fun _ => []) [(1, 2)]).1, h5, h6⟩

/-- Claim C9: whenever `wait_for_all_tasks` does not take the short-circuit,
its pop loop runs until the registry vector yields no more entries, so on
return the registry is empty — regardless of how many entries it held, in
particular even when it held more entries than the in-flight counter
indicated. -/
theorem C9_registry_emptied (s : EngineState)
    (hne : s.stream.is_empty = false) (htc : s.stream.task_count ≠ 0) :
    (wait_for_all_tasks s).1.iter = [] := by
  rw [wait_for_all_tasks_of_active s hne htc]

/-- Claim C9 witness: two registry entries but in-flight counter 1 — the
registry is still fully emptied. -/
theorem C9_registry_emptied_witness :
    (wait_for_all_tasks ⟨[(1, 10), (2, 20)], ⟨[], 1⟩⟩).1.iter = [] :=
  C9_registry_emptied ⟨[(1, 10), (2, 20)], ⟨[], 1⟩⟩ (by decide) (by decide)

/-- Claim C10: `wait_for 0` is a no-op in every engine state: if the stream
is empty or the in-flight counter is zero the first guard returns, and
otherwise `0` is below the positive in-flight counter so the second guard
returns; in no state does it remove an entry or schedule a blocking wait —
the trace holds only the two unconditional `poll` barriers. -/
theorem C10_wait_for_zero_noop (s : EngineState) :
    wait_for s 0 = (s, [Event.barrier, Event.barrier]) := by
  apply wait_for_guard_noop
  by_cases h : s.stream.task_count = 0
  · exact Or.inr (Or.inl h)
  · exact Or.inr (Or.inr (Or.inl (Nat.pos_of_ne_zero h)))

end SpawnGroups
